import Mathlib

/-!
Verification of the core validation engine (scripts/validation_engine.py)
of the automated-validation-suite repository.

Shallow embedding conventions:
* Python numeric values (floats produced by `float(...)` and numeric
  configuration entries) are modelled as exact rationals `ℚ`; the claims
  under study are order/arithmetic comparisons and short decimal
  renderings, where the rational idealisation agrees with the source on
  every concrete value exercised here.
* Python strings are Lean `String` / `List Char`; `str.lower()` is the
  ASCII `Char.toLower` map.
* Python dicts that the engine builds by repeated assignment are
  association lists with Python's dict semantics (`dictInsert` keeps the
  first-insertion position of a key and updates its value in place).
* A Python call that may raise is an `Except String` value.
-/

namespace ValidationSuite

/-- Embedding of the `ValidationResult` constructor
(`validation_engine.py`, `class ValidationResult`): rule id, pass flag,
message and severity string (`details` / `timestamp` carry no data used
by the claims under study).  Severity is the raw Python string
(`"ERROR"`, `"WARNING"`, `"INFO"`, or anything else). -/
structure ValidationResult where
  rule_id : String
  passed : Bool
  message : String
  severity : String
deriving Repr, DecidableEq

/-- The `summary` dict of `ValidationReport.__init__`. -/
structure Summary where
  total_rules : Nat
  passed : Nat
  failed : Nat
  warnings : Nat
  errors : Nat
deriving Repr, DecidableEq

/-- Embedding of `ValidationReport` (results list plus summary counters;
the wall-clock fields are not modelled). -/
structure ValidationReport where
  model_name : String
  results : List ValidationResult
  summary : Summary
deriving Repr, DecidableEq

/-- `ValidationReport.__init__`: empty result list, all counters zero. -/
def ValidationReport.init (name : String) : ValidationReport :=
  { model_name := name
    results := []
    summary := { total_rules := 0, passed := 0, failed := 0, warnings := 0, errors := 0 } }

/-- Embedding of `ValidationReport.add_result`: append the result, bump
`total_rules`, then bump `passed`, or `failed` plus (for failed results)
`errors` when the severity string is `"ERROR"` and `warnings` when it is
`"WARNING"`. -/
def ValidationReport.add_result (rep : ValidationReport) (r : ValidationResult) :
    ValidationReport :=
  let s0 := rep.summary
  let s1 : Summary := { s0 with total_rules := s0.total_rules + 1 }
  let s2 : Summary :=
    if r.passed then
      { s1 with passed := s1.passed + 1 }
    else
      let sf : Summary := { s1 with failed := s1.failed + 1 }
      if r.severity = ("ERROR") then { sf with errors := sf.errors + 1 }
      else if r.severity = ("WARNING") then { sf with warnings := sf.warnings + 1 }
      else sf
  { rep with results := rep.results ++ [r], summary := s2 }

/-- `ValidationReport.is_valid`: true iff the error counter is zero. -/
def ValidationReport.is_valid (rep : ValidationReport) : Bool :=
  rep.summary.errors == 0

/-- A report reached by a sequence of `add_result` calls starting from a
fresh report: every state a `ValidationReport` can be in. -/
def buildReport (name : String) (rs : List ValidationResult) : ValidationReport :=
  rs.foldl ValidationReport.add_result (ValidationReport.init name)

/-- Predicate: a result is a failed ERROR-severity result. -/
def isFailedError (r : ValidationResult) : Bool :=
  !r.passed && r.severity == ("ERROR")

/-- Predicate: a result is a failed WARNING-severity result. -/
def isFailedWarning (r : ValidationResult) : Bool :=
  !r.passed && r.severity == ("WARNING")

/-- The counter invariant, as a predicate on one report state. -/
def reportInvariant (rep : ValidationReport) : Prop :=
  rep.summary.passed + rep.summary.failed = rep.summary.total_rules
  ∧ rep.summary.total_rules = rep.results.length
  ∧ rep.summary.errors = (rep.results.countP isFailedError)
  ∧ rep.summary.warnings = (rep.results.countP isFailedWarning)

lemma add_result_results (rep : ValidationReport) (r : ValidationResult) :
    (rep.add_result r).results = rep.results ++ [r] := rfl

lemma countP_append_singleton (p : ValidationResult → Bool)
    (l : List ValidationResult) (r : ValidationResult) :
    (l ++ [r]).countP p = l.countP p + (if p r then 1 else 0) := by
  rw [List.countP_append]
  simp [List.countP_cons, List.countP_nil]

/-- One `add_result` step preserves the counter invariant. -/
lemma reportInvariant_add (rep : ValidationReport) (r : ValidationResult)
    (h : reportInvariant rep) : reportInvariant (rep.add_result r) := by
  obtain ⟨h1, h2, h3, h4⟩ := h
  unfold reportInvariant ValidationReport.add_result
  simp only [add_result_results, countP_append_singleton, List.length_append,
    List.length_cons, List.length_nil]
  by_cases hp : r.passed
  · simp [hp, isFailedError, isFailedWarning, h1, h2, h3, h4]
    omega
  · by_cases he : r.severity = ("ERROR")
    · simp [hp, he, isFailedError, isFailedWarning, h1, h2, h3, h4]
      omega
    · by_cases hw : r.severity = ("WARNING")
      · simp [hp, he, hw, isFailedError, isFailedWarning, h1, h2, h3, h4]
        omega
      · simp [hp, he, hw, isFailedError, isFailedWarning, h1, h2, h3, h4]
        omega

lemma reportInvariant_foldl (rs : List ValidationResult) (rep : ValidationReport)
    (h : reportInvariant rep) :
    reportInvariant (rs.foldl ValidationReport.add_result rep) := by
  induction rs generalizing rep with
  | nil => exact h
  | cons r rest ih =>
    exact ih _ (reportInvariant_add rep r h)

lemma reportInvariant_build (name : String) (rs : List ValidationResult) :
    reportInvariant (buildReport name rs) := by
  apply reportInvariant_foldl
  unfold reportInvariant ValidationReport.init
  simp

/-- **C1.** Report counter invariant: after any sequence of `add_result`
calls, `summary.passed + summary.failed = summary.total_rules =
len(results)`, `summary.errors` counts the failed results whose severity
is `ERROR`, and `summary.warnings` counts the failed results whose
severity is `WARNING` (a failed result of any other severity, e.g. INFO,
increments neither counter). -/
theorem report_counter_invariant (name : String) (rs : List ValidationResult) :
    (buildReport name rs).summary.passed + (buildReport name rs).summary.failed
        = (buildReport name rs).summary.total_rules
    ∧ (buildReport name rs).summary.total_rules = (buildReport name rs).results.length
    ∧ (buildReport name rs).summary.errors
        = ((buildReport name rs).results.countP isFailedError)
    ∧ (buildReport name rs).summary.warnings
        = ((buildReport name rs).results.countP isFailedWarning) :=
  reportInvariant_build name rs

lemma buildReport_results (name : String) (rs : List ValidationResult) :
    (buildReport name rs).results = rs := by
  suffices h : ∀ (rep : ValidationReport),
      (rs.foldl ValidationReport.add_result rep).results = rep.results ++ rs by
    simpa [buildReport, ValidationReport.init] using h (ValidationReport.init name)
  induction rs with
  | nil => intro rep; simp
  | cons r rest ih =>
    intro rep
    simp [List.foldl_cons, ih, add_result_results]

/-- **C2.** Validity criterion: `is_valid()` is true iff
`summary.errors = 0`, equivalently iff no accumulated result is a failed
ERROR-severity result; appending a failed WARNING-severity result never
changes `is_valid()`. -/
theorem is_valid_iff_no_errors (name : String) (rs : List ValidationResult) :
    ((buildReport name rs).is_valid = true ↔ (buildReport name rs).summary.errors = 0)
    ∧ ((buildReport name rs).is_valid = true ↔ rs.countP isFailedError = 0)
    ∧ (∀ r : ValidationResult, r.passed = false → r.severity = ("WARNING") →
        (buildReport name (rs ++ [r])).is_valid = (buildReport name rs).is_valid) := by
  have hinv := reportInvariant_build name rs
  obtain ⟨-, -, h3, -⟩ := hinv
  refine ⟨?_, ?_, ?_⟩
  · simp [ValidationReport.is_valid]
  · rw [buildReport_results] at h3
    simp [ValidationReport.is_valid, h3]
  · intro r hp hw
    have hinv2 := reportInvariant_build name (rs ++ [r])
    obtain ⟨-, -, h3', -⟩ := hinv2
    rw [buildReport_results] at h3'
    simp only [ValidationReport.is_valid, h3', h3, buildReport_results]
    rw [countP_append_singleton]
    simp [isFailedError, hp, hw]

/-- Closed witness for the validity criterion theorem at a concrete
report: one failed WARNING result leaves the report valid. -/
theorem is_valid_iff_no_errors_witness :
    (buildReport ("m") ([⟨("R1"), false, ("w"), ("WARNING")⟩] ++
        [⟨("R2"), false, ("w2"), ("WARNING")⟩])).is_valid
      = (buildReport ("m") [⟨("R1"), false, ("w"), ("WARNING")⟩]).is_valid :=
  (is_valid_iff_no_errors ("m") [⟨("R1"), false, ("w"), ("WARNING")⟩]).2.2
    ⟨("R2"), false, ("w2"), ("WARNING")⟩ rfl rfl

/-! ## Model data and the engine's rule-execution loop -/

/-- The slice of `model_data` that the rules read: the `files` dict
(relative path → text content, in traversal order), the merged
`parameters` dict, and `metadata['file_count']`. -/
structure ModelData where
  files : List (String × String)
  parameters : List (String × ℚ)
  file_count : Nat
deriving Repr, DecidableEq

/-- A configured rule as the engine sees it: its `rule_id` and its
`validate` call, which either returns a result or raises
(`Except.error` carries `str(e)`). -/
structure RuleSpec where
  rule_id : String
  run : ModelData → Except String ValidationResult

/-- The synthetic result `validate_model` builds in its `except` branch
for a rule whose `validate` raised `e`. -/
def syntheticFailure (rid : String) (e : String) : ValidationResult :=
  ⟨rid, false, ("Rule execution failed: ") ++ e, ("ERROR")⟩

/-- One iteration of the `for rule in self.rules` loop of
`ValidationEngine.validate_model`: add the rule's result, or the
synthetic ERROR result when the rule raised. -/
def runRuleStep (md : ModelData) (rep : ValidationReport) (rule : RuleSpec) :
    ValidationReport :=
  match rule.run md with
  | Except.ok result => rep.add_result result
  | Except.error e => rep.add_result (syntheticFailure rule.rule_id e)

/-- Embedding of `ValidationEngine.validate_model` restricted to its
rule-execution phase: starting from a fresh report for the model name,
run every configured rule in order under the per-rule failure isolation
boundary.  (Loading model data from the filesystem happens before this
phase and is outside the embedding; the loaded `ModelData` is the
argument.) -/
def validate_model (rules : List RuleSpec) (model_name : String) (md : ModelData) :
    ValidationReport :=
  rules.foldl (runRuleStep md) (ValidationReport.init model_name)

/-- The result the loop records for one rule. -/
def ruleOutcome (md : ModelData) (rule : RuleSpec) : ValidationResult :=
  match rule.run md with
  | Except.ok result => result
  | Except.error e => syntheticFailure rule.rule_id e

lemma foldl_runRuleStep_results (md : ModelData) (rules : List RuleSpec)
    (rep : ValidationReport) :
    (rules.foldl (runRuleStep md) rep).results
      = rep.results ++ rules.map (ruleOutcome md) := by
  induction rules generalizing rep with
  | nil => simp
  | cons rule rest ih =>
    simp only [List.foldl_cons, List.map_cons, ih]
    have hstep : (runRuleStep md rep rule).results
        = rep.results ++ [ruleOutcome md rule] := by
      unfold runRuleStep ruleOutcome
      cases rule.run md <;> simp [add_result_results]
    rw [hstep]
    simp

lemma validate_model_results (rules : List RuleSpec) (name : String) (md : ModelData) :
    (validate_model rules name md).results = rules.map (ruleOutcome md) := by
  unfold validate_model
  rw [foldl_runRuleStep_results]
  simp [ValidationReport.init]

/-- A default result value used with positional list indexing. -/
def noResult : ValidationResult := ⟨(""), true, (""), ("")⟩

/-- A default rule value used with positional list indexing. -/
def noRule : RuleSpec := ⟨(""), fun _ => Except.ok noResult⟩

/-- **C3.** Rule failure isolation: the report produced by
`validate_model` has exactly one result per configured rule, in order;
at a position where the rule's `validate` raised `e`, that result is the
synthetic one with the rule's id, `passed = false`, severity ERROR and a
message wrapping the fault description, and at a position where the rule
returned normally the result is the rule's own. -/
theorem rule_failure_isolation (rules : List RuleSpec) (name : String) (md : ModelData) :
    (validate_model rules name md).results.length = rules.length
    ∧ (∀ i : Nat, i < rules.length →
        (∀ e : String, (rules.getD i noRule).run md = Except.error e →
          (validate_model rules name md).results.getD i noResult
            = syntheticFailure (rules.getD i noRule).rule_id e)
        ∧ (∀ r : ValidationResult, (rules.getD i noRule).run md = Except.ok r →
          (validate_model rules name md).results.getD i noResult = r)) := by
  have hres := validate_model_results rules name md
  constructor
  · rw [hres, List.length_map]
  · intro i hi
    have hget : (validate_model rules name md).results.getD i noResult
        = ruleOutcome md (rules.getD i noRule) := by
      rw [hres]
      rw [List.getD_eq_getElem?_getD, List.getD_eq_getElem?_getD]
      rw [List.getElem?_map]
      have : rules[i]? = some (rules.getD i noRule) := by
        rw [List.getD_eq_getElem?_getD]
        cases h : rules[i]? with
        | none => exact absurd (List.getElem?_eq_none_iff.mp h) (Nat.not_le.mpr hi)
        | some v => rfl
      rw [this]
      rfl
    constructor
    · intro e he
      rw [hget]
      unfold ruleOutcome
      rw [he]
    · intro r hr
      rw [hget]
      unfold ruleOutcome
      rw [hr]

/-- Three concrete rules of which the middle one raises, used to witness
the failure-isolation theorem. -/
def threeRules : List RuleSpec :=
  [⟨("A"), fun _ => Except.ok ⟨("A"), true, ("ok"), ("INFO")⟩⟩,
   ⟨("B"), fun _ => Except.error ("boom")⟩,
   ⟨("C"), fun _ => Except.ok ⟨("C"), true, ("ok"), ("INFO")⟩⟩]

/-- Closed witness for rule failure isolation: with three rules of which
the middle one raises, the report has three results and the middle one
is the synthetic ERROR result while the third rule still contributed its
own result. -/
theorem rule_failure_isolation_witness :
    ((validate_model threeRules ("m") ⟨[], [], 0⟩).results.length = 3)
    ∧ ((validate_model threeRules ("m") ⟨[], [], 0⟩).results.getD 1 noResult
      = ⟨("B"), false, ("Rule execution failed: boom"), ("ERROR")⟩)
    ∧ ((validate_model threeRules ("m") ⟨[], [], 0⟩).results.getD 2 noResult
      = ⟨("C"), true, ("ok"), ("INFO")⟩) := by
  refine ⟨?_, ?_, ?_⟩
  · exact (rule_failure_isolation threeRules ("m") ⟨[], [], 0⟩).1.trans rfl
  · exact (((rule_failure_isolation threeRules ("m") ⟨[], [], 0⟩).2 1 (by decide)).1
      ("boom") rfl).trans rfl
  · exact ((rule_failure_isolation threeRules ("m") ⟨[], [], 0⟩).2 2 (by decide)).2
      ⟨("C"), true, ("ok"), ("INFO")⟩ rfl

/-! ## String and dict helpers shared by the rules -/

/-- Python `str.lower()` on a character list (ASCII model). -/
def lowerChars (l : List Char) : List Char := l.map Char.toLower

/-- Does `l` start with `needle`?  (Helper for substring containment.) -/
def leadsWith : List Char → List Char → Bool
  | [], _ => true
  | _ :: _, [] => false
  | a :: as, b :: bs => a == b && leadsWith as bs

/-- Python's `needle in haystack` on character lists: `needle` occurs as
a contiguous substring of `haystack` (the empty needle always occurs). -/
def containsSub (needle : List Char) : List Char → Bool
  | [] => needle.isEmpty
  | b :: bs => leadsWith needle (b :: bs) || containsSub needle bs

/-- Python dict lookup `m[k]` / `m.get(k)` on an association list. -/
def dictFind (m : List (String × ℚ)) (k : String) : Option ℚ :=
  match m.find? (fun p => p.1 == k) with
  | some p => some p.2
  | none => none

/-- Python `m.get(k, d)` with a default. -/
def dictGet (m : List (String × ℚ)) (k : String) (d : ℚ) : ℚ :=
  match dictFind m k with
  | some v => v
  | none => d

/-- Python dict assignment `m[k] = v`: update the value in place if the
key exists (keeping its position), else append the new pair. -/
def dictInsert (m : List (String × ℚ)) (k : String) (v : ℚ) : List (String × ℚ) :=
  if m.any (fun p => p.1 == k) then
    m.map (fun p => if p.1 == k then (k, v) else p)
  else
    m ++ [(k, v)]

/-! ## File Existence rule -/

/-- The `found` test of `FileExistenceRule.validate`:
`required_file.lower() in f.lower()` for some present file `f`. -/
def matchesRequired (present : List String) (required_file : String) : Bool :=
  present.any (fun f => containsSub (lowerChars required_file.toList) (lowerChars f.toList))

/-- The `missing_files` list of `FileExistenceRule.validate`: required
names, in order, for which no present relative path case-insensitively
contains the name as a substring. -/
def missingFiles (required_files : List String) (md : ModelData) : List String :=
  required_files.filter (fun rf => !(matchesRequired (md.files.map Prod.fst) rf))

/-- Embedding of `FileExistenceRule.validate`: fail listing the missing
required names comma-joined, or pass with the count of required files. -/
def fileExistenceValidate (required_files : List String) (md : ModelData) :
    ValidationResult :=
  let missing := missingFiles required_files md
  if !missing.isEmpty then
    ⟨("FILE_EXISTENCE"), false,
      ("Missing required files: ") ++ String.intercalate (", ") missing, ("ERROR")⟩
  else
    ⟨("FILE_EXISTENCE"), true,
      ("All ") ++ toString required_files.length ++ (" required files present"), ("INFO")⟩

/-- The model directory of the spec's concrete existence-rule scenario:
only `input.dat` and `material_properties.csv` are discovered. -/
def twoFileModel : ModelData :=
  ⟨[(("input.dat"), ("dummy content line 1\nline 2")),
    (("material_properties.csv"), ("a,b\n1,2"))], [], 2⟩

/-- The default `required_files` configuration entry. -/
def defaultRequiredFiles : List String :=
  [("input.dat"), ("boundary_conditions.txt"), ("material_properties.csv")]

/-- **C7.** Existence rule matching: a required name counts as present
exactly when some discovered relative path case-insensitively contains
it as a substring; the rule fails iff at least one required name is
unmatched, and then its message enumerates the unmatched names
comma-joined; on success the message states the count of required
files.  Concretely, with the default required files and only `input.dat`
and `material_properties.csv` discovered, the rule fails and its message
contains `boundary_conditions.txt`. -/
lemma fileExistence_passed (required_files : List String) (md : ModelData) :
    (fileExistenceValidate required_files md).passed
      = (missingFiles required_files md).isEmpty := by
  unfold fileExistenceValidate
  cases h : (missingFiles required_files md).isEmpty <;> simp [h]

theorem existence_rule_matching (required_files : List String) (md : ModelData) :
    ((fileExistenceValidate required_files md).passed = false ↔
      ∃ rf ∈ required_files, matchesRequired (md.files.map Prod.fst) rf = false)
    ∧ (∀ rf : String, matchesRequired (md.files.map Prod.fst) rf = true ↔
        ∃ f ∈ md.files.map Prod.fst,
          containsSub (lowerChars rf.toList) (lowerChars f.toList) = true)
    ∧ (missingFiles required_files md ≠ [] →
        (fileExistenceValidate required_files md).message
          = ("Missing required files: ")
            ++ String.intercalate (", ") (missingFiles required_files md))
    ∧ (missingFiles required_files md = [] →
        (fileExistenceValidate required_files md).message
          = ("All ") ++ toString required_files.length ++ (" required files present"))
    ∧ ((fileExistenceValidate defaultRequiredFiles twoFileModel).passed = false
        ∧ containsSub ("boundary_conditions.txt").toList
            (fileExistenceValidate defaultRequiredFiles twoFileModel).message.toList
          = true) := by
  refine ⟨?_, ?_, ?_, ?_, by decide⟩
  · rw [fileExistence_passed]
    constructor
    · intro hp
      have hne : missingFiles required_files md ≠ [] := by
        intro hnil
        rw [hnil] at hp
        cases hp
      rcases List.exists_mem_of_ne_nil _ hne with ⟨rf, hrf⟩
      rw [missingFiles, List.mem_filter] at hrf
      exact ⟨rf, hrf.1, by simpa using hrf.2⟩
    · rintro ⟨rf, hrf, hm⟩
      have hmem : rf ∈ missingFiles required_files md := by
        rw [missingFiles, List.mem_filter]
        exact ⟨hrf, by simp [hm]⟩
      cases hmf : missingFiles required_files md with
      | nil => rw [hmf] at hmem; cases hmem
      | cons a l => rfl
  · intro rf
    unfold matchesRequired
    rw [List.any_eq_true]
  · intro h
    have hE : (missingFiles required_files md).isEmpty = false := by
      cases hmf : missingFiles required_files md with
      | nil => exact absurd hmf h
      | cons a l => rfl
    unfold fileExistenceValidate
    simp [hE]
  · intro h
    unfold fileExistenceValidate
    simp [h]

/-- Closed witness for the existence-rule theorem: the concrete scenario
instantiated through the theorem, with the missing-file hypothesis
discharged by evaluation. -/
theorem existence_rule_matching_witness :
    (fileExistenceValidate defaultRequiredFiles twoFileModel).message
      = ("Missing required files: ")
        ++ String.intercalate (", ") (missingFiles defaultRequiredFiles twoFileModel) :=
  (existence_rule_matching defaultRequiredFiles twoFileModel).2.2.1 (by decide)

/-! ## Rendering numeric values into messages

Python renders numbers into f-strings with `str`.  On the exact decimal
values exercised by the engine and its configuration this is the plain
decimal expansion; `pyDecRepr` computes it for a rational whose reduced
denominator divides a power of ten (every value appearing in the claims
does), and falls back to `num/den` notation otherwise. -/

/-- Decimal expansion of a non-integral rational with terminating
decimal expansion (reduced denominator dividing a power of ten). -/
def pyDecRepr (q : ℚ) : String :=
  match ((List.range 30).filter (fun k => decide (0 < k) && (10 ^ k) % q.den == 0)) with
  | [] => toString q
  | k :: _ =>
    let scale : Nat := (10 ^ k) / q.den
    let a : Nat := (q.num * (scale : Int)).natAbs
    let ip : Nat := a / 10 ^ k
    let ds : List Char := (toString (a % 10 ^ k)).toList
    let fracStr : String := String.mk (List.replicate (k - ds.length) ('0') ++ ds)
    (if q.num < 0 then ("-") else ("")) ++ toString ip ++ (".") ++ fracStr

/-- `str(x)` for a Python float value `x` (values bound by `float(...)`
in the source): integral values print with a trailing `.0`. -/
def pyFloatRepr (q : ℚ) : String :=
  if q.den = 1 then toString q.num ++ (".0") else pyDecRepr q

/-- `str(x)` for a numeric configuration entry `x`: the default
configuration stores Python ints for every bound except `0.1`, so
integral values print without a decimal point. -/
def pyNumRepr (q : ℚ) : String :=
  if q.den = 1 then toString q.num else pyDecRepr q

/-! ## Parameter Range rule -/

/-- Configured parameter ranges: name → (min, max). -/
def RangeConfig : Type := List (String × (ℚ × ℚ))

/-- Lookup of `param_name in self.parameter_ranges` /
`self.parameter_ranges[param_name]`. -/
def rangeFor (ranges : RangeConfig) (name : String) : Option (ℚ × ℚ) :=
  match ranges.find? (fun p => p.1 == name) with
  | some p => some p.2
  | none => none

/-- One entry of the `range_violations` list built by
`ParameterRangeRule.validate`. -/
structure Violation where
  parameter : String
  value : ℚ
  range : String
  violation_type : String
deriving Repr, DecidableEq

/-- The `range_violations` list: for each extracted parameter with a
configured range, a violation when the value is strictly below the
minimum or strictly above the maximum. -/
def rangeViolations (ranges : RangeConfig) (params : List (String × ℚ)) :
    List Violation :=
  params.filterMap (fun pv =>
    match rangeFor ranges pv.1 with
    | some (mn, mx) =>
      if pv.2 < mn ∨ pv.2 > mx then
        some ⟨pv.1, pv.2, pyNumRepr mn ++ (" to ") ++ pyNumRepr mx,
          if pv.2 < mn then ("below_minimum") else ("above_maximum")⟩
      else none
    | none => none)

/-- Embedding of `ParameterRangeRule.validate`: aggregate all range
violations into one failing ERROR result, or pass reporting how many
parameters were covered by a configured range. -/
def parameterRangeValidate (ranges : RangeConfig) (md : ModelData) :
    ValidationResult :=
  let vs := rangeViolations ranges md.parameters
  if !vs.isEmpty then
    ⟨("PARAMETER_RANGES"), false,
      ("Parameter range violations: ")
        ++ String.intercalate ("; ")
          (vs.map (fun v => v.parameter ++ ("=") ++ pyFloatRepr v.value
            ++ (" (valid range: ") ++ v.range ++ (")"))),
      ("ERROR")⟩
  else
    ⟨("PARAMETER_RANGES"), true,
      ("All ")
        ++ toString (md.parameters.filter (fun p => (rangeFor ranges p.1).isSome)).length
        ++ (" checked parameters within valid ranges"), ("INFO")⟩

/-- The rational `0.1` in reduced constructor form (so that kernel
evaluation of concrete instances does not go through `Rat.div`). -/
def zeroPointOne : ℚ := ⟨1, 10, by norm_num, by norm_num⟩

/-- The rational `-2.5` in reduced constructor form. -/
def negTwoPointFive : ℚ := ⟨-5, 2, by norm_num, by norm_num⟩

/-- The default `parameter_ranges` configuration entry. -/
def defaultParameterRanges : RangeConfig :=
  [(("temperature"), ((200 : ℚ), (800 : ℚ))),
   (("pressure"), ((0 : ℚ), (500000 : ℚ))),
   (("velocity"), ((0 : ℚ), (100 : ℚ))),
   (("density"), (zeroPointOne, (10000 : ℚ)))]

/-- The model of the spec's concrete range scenario: extracted
`density = -2.5` only. -/
def densityModel : ModelData := ⟨[], [(("density"), negTwoPointFive)], 0⟩

lemma parameterRange_passed (ranges : RangeConfig) (md : ModelData) :
    (parameterRangeValidate ranges md).passed
      = (rangeViolations ranges md.parameters).isEmpty := by
  unfold parameterRangeValidate
  cases h : (rangeViolations ranges md.parameters).isEmpty <;> simp [h]

/-- **C4.** Range rule with inclusive bounds: the rule passes exactly
when every extracted parameter with a configured range `(min, max)`
satisfies `min ≤ value ≤ max` (boundary values pass); a violating
parameter is recorded with `violation_type` `below_minimum` when
`value < min` and `above_maximum` when `value > max`; each recorded
violation is for a parameter with a configured range; and with extracted
`density = -2.5` against the default ranges the rule fails with a
message containing `density=-2.5`. -/
theorem range_rule_inclusive_bounds (ranges : RangeConfig) (md : ModelData) :
    ((parameterRangeValidate ranges md).passed = true ↔
      ∀ pv ∈ md.parameters, ∀ mn mx : ℚ, rangeFor ranges pv.1 = some (mn, mx) →
        mn ≤ pv.2 ∧ pv.2 ≤ mx)
    ∧ (∀ pv ∈ md.parameters, ∀ mn mx : ℚ, rangeFor ranges pv.1 = some (mn, mx) →
        (pv.2 < mn →
          (⟨pv.1, pv.2, pyNumRepr mn ++ (" to ") ++ pyNumRepr mx,
            ("below_minimum")⟩ : Violation) ∈ rangeViolations ranges md.parameters)
        ∧ (mn ≤ mx → pv.2 > mx →
          (⟨pv.1, pv.2, pyNumRepr mn ++ (" to ") ++ pyNumRepr mx,
            ("above_maximum")⟩ : Violation) ∈ rangeViolations ranges md.parameters))
    ∧ (∀ v ∈ rangeViolations ranges md.parameters, (rangeFor ranges v.parameter).isSome)
    ∧ ((parameterRangeValidate defaultParameterRanges densityModel).passed = false
        ∧ containsSub ("density=-2.5").toList
            (parameterRangeValidate defaultParameterRanges densityModel).message.toList
          = true) := by
  refine ⟨?_, ?_, ?_, by decide⟩
  · rw [parameterRange_passed]
    constructor
    · intro hp pv hpv mn mx hr
      by_contra hbad
      push_neg at hbad
      have hviol : pv.2 < mn ∨ pv.2 > mx := by
        by_cases h1 : mn ≤ pv.2
        · exact Or.inr (hbad h1)
        · exact Or.inl (lt_of_not_le h1)
      have hmem : (⟨pv.1, pv.2, pyNumRepr mn ++ (" to ") ++ pyNumRepr mx,
          if pv.2 < mn then ("below_minimum") else ("above_maximum")⟩ : Violation)
          ∈ rangeViolations ranges md.parameters := by
        rw [rangeViolations, List.mem_filterMap]
        exact ⟨pv, hpv, by rw [hr]; simp [hviol]⟩
      cases hmf : rangeViolations ranges md.parameters with
      | nil => rw [hmf] at hmem; cases hmem
      | cons a l => rw [hmf] at hp; cases hp
    · intro hall
      have : rangeViolations ranges md.parameters = [] := by
        rw [rangeViolations, List.filterMap_eq_nil_iff]
        intro pv hpv
        cases hr : rangeFor ranges pv.1 with
        | none => rfl
        | some r =>
          obtain ⟨hmn, hmx⟩ := hall pv hpv r.1 r.2 (by rw [hr])
          simp [not_lt.mpr hmn, not_lt.mpr hmx]
      rw [this]
      rfl
  · intro pv hpv mn mx hr
    constructor
    · intro hlt
      rw [rangeViolations, List.mem_filterMap]
      refine ⟨pv, hpv, ?_⟩
      rw [hr]
      simp [hlt]
    · intro hle hgt
      rw [rangeViolations, List.mem_filterMap]
      refine ⟨pv, hpv, ?_⟩
      rw [hr]
      have hnlt : ¬pv.2 < mn := not_lt.mpr (le_trans hle (le_of_lt hgt))
      simp [hgt, hnlt]
  · intro v hv
    rw [rangeViolations, List.mem_filterMap] at hv
    obtain ⟨pv, hpv, heq⟩ := hv
    cases hr : rangeFor ranges pv.1 with
    | none => rw [hr] at heq; cases heq
    | some r =>
      obtain ⟨mn, mx⟩ := r
      rw [hr] at heq
      simp only at heq
      split at heq
      · obtain rfl := (Option.some.inj heq).symm
        show (rangeFor ranges pv.1).isSome = true
        rw [hr]
        rfl
      · cases heq

/-- Closed witness for the range-rule theorem: `density = -2.5` against
the default range `(0.1, 10000)` is recorded as a `below_minimum`
violation, via the theorem applied at the concrete model. -/
theorem range_rule_inclusive_bounds_witness :
    (⟨("density"), negTwoPointFive,
        pyNumRepr zeroPointOne ++ (" to ") ++ pyNumRepr ((10000 : ℚ)),
        ("below_minimum")⟩ : Violation)
      ∈ rangeViolations defaultParameterRanges densityModel.parameters :=
  ((range_rule_inclusive_bounds defaultParameterRanges densityModel).2.1
    ((("density"), negTwoPointFive)) (by decide) zeroPointOne ((10000 : ℚ))
    (by decide)).1 (by decide)

/-! ## Physics Plausibility rule -/

/-- The ratio-inconsistency flag of `PhysicsValidationRule.validate`:
with `temp`, `pressure`, `density` all positive, the normalized density
ratio deviates from `pressure / temp` by more than half of
`pressure / temp`. -/
def ratioInconsistent (temp pressure density : ℚ) : Prop :=
  temp > 0 ∧ pressure > 0 ∧ density > 0
    ∧ |pressure / temp - density / 100| > (pressure / temp) * (1 / 2)

instance (temp pressure density : ℚ) : Decidable (ratioInconsistent temp pressure density) := by
  unfold ratioInconsistent
  infer_instance

/-- The unit-confusion flag: `0 < temp < 10`. -/
def unitConfusion (temp : ℚ) : Prop := temp > 0 ∧ temp < 10

instance (temp : ℚ) : Decidable (unitConfusion temp) := by
  unfold unitConfusion
  infer_instance

/-- The `physics_violations` list built by
`PhysicsValidationRule.validate`, in source order: the ratio message
first, then the unit-confusion message. -/
def physicsViolations (md : ModelData) : List String :=
  let parameters := md.parameters
  let temp := dictGet parameters ("temperature") 0
  let pressure := dictGet parameters ("pressure") 0
  let density := dictGet parameters ("density") 0
  (if ratioInconsistent temp pressure density then
    [("Density (") ++ pyFloatRepr density ++ (") inconsistent with temperature (")
      ++ pyFloatRepr temp ++ (") and pressure (") ++ pyFloatRepr pressure ++ (")")]
  else [])
  ++ (if unitConfusion temp then
    [("Temperature (") ++ pyFloatRepr temp
      ++ (") unusually low - check units (Kelvin vs Celsius)")]
  else [])

/-- Embedding of `PhysicsValidationRule.validate`: one failing ERROR
result when any flag is raised, a passing INFO result otherwise. -/
def physicsValidate (md : ModelData) : ValidationResult :=
  let vs := physicsViolations md
  if !vs.isEmpty then
    ⟨("PHYSICS_VALIDATION"), false,
      ("Physics violations detected: ") ++ String.intercalate ("; ") vs, ("ERROR")⟩
  else
    ⟨("PHYSICS_VALIDATION"), true, ("Physics validation checks passed"), ("INFO")⟩

lemma physicsValidate_passed (md : ModelData) :
    (physicsValidate md).passed = (physicsViolations md).isEmpty := by
  unfold physicsValidate
  cases h : (physicsViolations md).isEmpty <;> simp [h]

lemma physicsViolations_empty_iff (md : ModelData) :
    (physicsViolations md).isEmpty = true ↔
      ¬ratioInconsistent (dictGet md.parameters ("temperature") 0)
          (dictGet md.parameters ("pressure") 0) (dictGet md.parameters ("density") 0)
      ∧ ¬unitConfusion (dictGet md.parameters ("temperature") 0) := by
  unfold physicsViolations
  by_cases h1 : ratioInconsistent (dictGet md.parameters ("temperature") 0)
      (dictGet md.parameters ("pressure") 0) (dictGet md.parameters ("density") 0)
    <;> by_cases h2 : unitConfusion (dictGet md.parameters ("temperature") 0)
    <;> simp [h1, h2]

/-- **C8.** Physics plausibility rule: reading `temperature`, `pressure`
and `density` from the parameter mapping with default `0`, the rule
fails (with one ERROR result) exactly when the ratio inconsistency
(`|pressure/temp − density/100| > 0.5·(pressure/temp)` with all three
positive) or the unit confusion (`0 < temperature < 10`) is flagged, and
passes otherwise; concretely, `temperature = 50` alone passes while
`temperature = 5` alone fails, and the unit-confusion flag holds exactly
on `0 < temp < 10`. -/
theorem physics_rule_flags (md : ModelData) :
    ((physicsValidate md).passed = false ↔
      ratioInconsistent (dictGet md.parameters ("temperature") 0)
          (dictGet md.parameters ("pressure") 0) (dictGet md.parameters ("density") 0)
      ∨ unitConfusion (dictGet md.parameters ("temperature") 0))
    ∧ ((physicsValidate md).passed = false → (physicsValidate md).severity = ("ERROR"))
    ∧ (∀ t : ℚ, unitConfusion t ↔ 0 < t ∧ t < 10)
    ∧ (physicsValidate ⟨[], [(("temperature"), ((50 : ℚ)))], 0⟩).passed = true
    ∧ (physicsValidate ⟨[], [(("temperature"), ((5 : ℚ)))], 0⟩).passed = false := by
  refine ⟨?_, ?_, fun t => Iff.rfl, by decide, by decide⟩
  · rw [physicsValidate_passed]
    have hiff := physicsViolations_empty_iff md
    constructor
    · intro hfalse
      by_contra hno
      push_neg at hno
      have htrue : (physicsViolations md).isEmpty = true := hiff.mpr ⟨hno.1, hno.2⟩
      rw [htrue] at hfalse
      cases hfalse
    · intro hor
      cases h : (physicsViolations md).isEmpty
      · rfl
      · exfalso
        have hnone := hiff.mp h
        rcases hor with h1 | h2
        · exact hnone.1 h1
        · exact hnone.2 h2
  · intro hp
    unfold physicsValidate
    cases h : (physicsViolations md).isEmpty
    · simp [h]
    · rw [physicsValidate_passed, h] at hp
      cases hp

/-- Closed witness for the physics-rule theorem: with `temperature = 5`
the rule fails with ERROR severity, via the theorem applied at the
concrete model. -/
theorem physics_rule_flags_witness :
    (physicsValidate ⟨[], [(("temperature"), ((5 : ℚ)))], 0⟩).severity = ("ERROR") :=
  (physics_rule_flags ⟨[], [(("temperature"), ((5 : ℚ)))], 0⟩).2.1 (by decide)

/-! ## File Format rule -/

/-- The per-file check of the `for filename, file_info in ...` loop of
`FileFormatRule.validate`: at most one format error per file, produced
by an if/elif chain — empty or binary-sentinel content short-circuits
(`continue`) past the extension checks, and the extension checks are
mutually exclusive.  The external `json.loads` parser is abstracted as
`jsonCheck` (`none` = parses, `some e` = `JSONDecodeError` with message
`e`). -/
def fileFormatError (jsonCheck : String → Option String) (filename content : String) :
    Option String :=
  if content = ("") ∨ content = ("[BINARY_FILE]") then
    some (filename ++ (": Empty or unreadable file"))
  else if String.endsWith filename (".csv") then
    if !(containsSub [','] content.toList) then
      some (filename ++ (": CSV file missing comma separators"))
    else none
  else if String.endsWith filename (".json") then
    match jsonCheck content with
    | some e => some (filename ++ (": Invalid JSON format - ") ++ e)
    | none => none
  else if String.endsWith filename (".dat") ∨ String.endsWith filename (".inp") then
    if (content.splitOn ("\n")).length < 2 then
      some (filename ++ (": File appears incomplete (only ")
        ++ toString (content.splitOn ("\n")).length ++ (" lines)"))
    else none
  else none

/-- The `format_errors` list of `FileFormatRule.validate`. -/
def formatErrors (jsonCheck : String → Option String) (md : ModelData) : List String :=
  md.files.filterMap (fun p => fileFormatError jsonCheck p.1 p.2)

/-- Embedding of `FileFormatRule.validate`: aggregate all per-file
format errors into one failing ERROR result, or pass with a count
message. -/
def fileFormatValidate (jsonCheck : String → Option String) (md : ModelData) :
    ValidationResult :=
  let errs := formatErrors jsonCheck md
  if !errs.isEmpty then
    ⟨("FILE_FORMAT"), false,
      ("Format issues found in ") ++ toString errs.length ++ (" files"), ("ERROR")⟩
  else
    ⟨("FILE_FORMAT"), true,
      ("All ") ++ toString md.files.length ++ (" files have valid formats"), ("INFO")⟩

/-- **C10.** The Format rule reports at most one error per file: the
error list is a `filterMap` of a per-file `Option`, so its length never
exceeds the number of discovered files; a file whose content is empty or
the binary sentinel is reported only as empty/unreadable (even when its
name would select an extension check); and a model with zero discovered
files passes the rule. -/
theorem format_rule_one_error_per_file (jsonCheck : String → Option String)
    (md : ModelData) :
    (formatErrors jsonCheck md).length ≤ md.files.length
    ∧ (∀ filename : String,
        fileFormatError jsonCheck filename ("")
          = some (filename ++ (": Empty or unreadable file"))
        ∧ fileFormatError jsonCheck filename ("[BINARY_FILE]")
          = some (filename ++ (": Empty or unreadable file")))
    ∧ (md.files = [] → (fileFormatValidate jsonCheck md).passed = true) := by
  refine ⟨?_, ?_, ?_⟩
  · unfold formatErrors
    exact List.length_filterMap_le _ _
  · intro filename
    constructor
    · unfold fileFormatError
      rw [if_pos (Or.inl rfl)]
    · unfold fileFormatError
      rw [if_pos (Or.inr rfl)]
  · intro h
    unfold fileFormatValidate formatErrors
    rw [h]
    rfl

/-- Closed witness for the format-rule theorem: a `.json` file with
binary-sentinel content is reported as empty/unreadable (the JSON check
is skipped), via the theorem applied at a concrete file. -/
theorem format_rule_one_error_per_file_witness :
    fileFormatError (fun _ => some ("parse error")) ("cfg.json") ("[BINARY_FILE]")
      = some (("cfg.json") ++ (": Empty or unreadable file")) :=
  ((format_rule_one_error_per_file (fun _ => some ("parse error")) ⟨[], [], 0⟩).2.1
    ("cfg.json")).2

/-! ## Configuration resolver -/

/-- The merged configuration (`ValidationEngine._load_config`'s result),
keyed by the four top-level fields of the default dict. -/
structure Config where
  file_types : List String
  parameter_ranges : RangeConfig
  required_files : List String
  validation_rules : List String

/-- The built-in `default_config` of `_load_config`. -/
def default_config : Config :=
  { file_types := [(".dat"), (".inp"), (".txt"), (".csv"), (".json")]
    parameter_ranges := defaultParameterRanges
    required_files := defaultRequiredFiles
    validation_rules :=
      [("file_existence"), ("file_format"), ("parameter_ranges"),
       ("cross_file_consistency"), ("physics_validation")] }

/-- A parsed user override document: any subset of the four top-level
fields (the `user_config` dict passed to `dict.update`). -/
structure UserConfig where
  file_types : Option (List String) := none
  parameter_ranges : Option RangeConfig := none
  required_files : Option (List String) := none
  validation_rules : Option (List String) := none

/-- `default_config.update(user_config)`: shallow merge per top-level
field, an overridden field replaces the default wholesale and the
remaining fields retain their defaults. -/
def mergeConfig (d : Config) (u : UserConfig) : Config :=
  { file_types := u.file_types.getD d.file_types
    parameter_ranges := u.parameter_ranges.getD d.parameter_ranges
    required_files := u.required_files.getD d.required_files
    validation_rules := u.validation_rules.getD d.validation_rules }

/-- What the engine finds at a supplied override path: the path may not
exist (`os.path.exists` false), the document may fail `json.load`
(raising, with message `e`), or it parses to an override. -/
inductive ConfigSource where
  | absent : ConfigSource
  | unparseable : String → ConfigSource
  | parsed : UserConfig → ConfigSource

/-- Embedding of `ValidationEngine._load_config`: `none` models no
`config_path` argument; a raised `json.load` error propagates out of
engine construction as `Except.error`. -/
def load_config : Option ConfigSource → Except String Config
  | none => Except.ok default_config
  | some ConfigSource.absent => Except.ok default_config
  | some (ConfigSource.unparseable e) => Except.error e
  | some (ConfigSource.parsed u) => Except.ok (mergeConfig default_config u)

/-- **C5.** Configuration resolver error contract: an unparseable
override document makes engine construction fail with the parser's
error surfaced to the caller; no supplied path silently yields the
built-in defaults; and a parsed override produces the default
configuration shallow-merged per top-level field, with unspecified
fields retaining their defaults. -/
theorem config_resolver_contract :
    (∀ e : String, load_config (some (ConfigSource.unparseable e)) = Except.error e)
    ∧ load_config none = Except.ok default_config
    ∧ (∀ u : UserConfig,
        load_config (some (ConfigSource.parsed u))
          = Except.ok (mergeConfig default_config u))
    ∧ (∀ u : UserConfig,
        (u.file_types = none →
          (mergeConfig default_config u).file_types = default_config.file_types)
        ∧ (u.parameter_ranges = none →
          (mergeConfig default_config u).parameter_ranges
            = default_config.parameter_ranges)
        ∧ (u.required_files = none →
          (mergeConfig default_config u).required_files
            = default_config.required_files)
        ∧ (u.validation_rules = none →
          (mergeConfig default_config u).validation_rules
            = default_config.validation_rules)
        ∧ (∀ rs : RangeConfig, u.parameter_ranges = some rs →
          (mergeConfig default_config u).parameter_ranges = rs)) := by
  refine ⟨fun e => rfl, rfl, fun u => rfl, fun u => ⟨?_, ?_, ?_, ?_, ?_⟩⟩
  · intro h
    unfold mergeConfig
    rw [h]
    rfl
  · intro h
    unfold mergeConfig
    rw [h]
    rfl
  · intro h
    unfold mergeConfig
    rw [h]
    rfl
  · intro h
    unfold mergeConfig
    rw [h]
    rfl
  · intro rs h
    unfold mergeConfig
    rw [h]
    rfl

/-- Closed witness for the configuration-resolver theorem: an override
that only replaces `required_files` keeps the default rule order, via
the theorem applied at a concrete override. -/
theorem config_resolver_contract_witness :
    (mergeConfig default_config
        { required_files := some [("main.inp")] }).validation_rules
      = default_config.validation_rules :=
  (config_resolver_contract.2.2.2 { required_files := some [("main.inp")] }).2.2.2.1 rfl

/-! ## Parameter extractor

`ValidationEngine._extract_parameters` applies three regular
expressions over the file text with `re.findall` and merges every match
into a dict.  The embedding implements each concrete pattern as a
deterministic scanner over the character list; the greedy/backtracking
semantics of the Python patterns coincides with maximal munch here
because in each pattern the character class following a starred class is
disjoint from it (word characters vs whitespace vs `=`/`:` vs the start
of a number).  `re.findall` is the usual left-to-right non-overlapping
scan: try a match at each position, emit it and resume after its end,
else advance one character. -/

/-- Python `\w` (ASCII model): letters, digits, underscore. -/
def isWordChar (c : Char) : Bool := c.isAlphanum || c == ('_')

/-- Python `\s` (ASCII part). -/
def isPySpace (c : Char) : Bool :=
  c == (' ') || c == ('\t') || c == ('\n') || c == ('\r')
    || c == ('\x0B') || c == ('\x0C')

/-- Python `\d` (ASCII): the code points of `0`–`9`. -/
def isDigitChar (c : Char) : Bool := 48 ≤ c.toNat && c.toNat ≤ 57

/-- Greedy star: longest prefix of characters satisfying `p`, plus the
rest (the direct recursive form of `List.span`, kept self-contained so
its equations unfold plainly in proofs). -/
def spanD (p : Char → Bool) : List Char → List Char × List Char
  | [] => ([], [])
  | c :: rest =>
    if p c then
      let s := spanD p rest
      (c :: s.1, s.2)
    else ([], c :: rest)

/-- Optional sign `[-+]?`: the consumed sign characters and the rest. -/
def scanSign (l : List Char) : List Char × List Char :=
  match l with
  | c :: r => if c == ('+') || c == ('-') then ([c], r) else ([], l)
  | [] => ([], [])

/-- A match of the number subpattern
`[-+]?\d*\.?\d+(?:[eE][-+]?\d+)?`, kept in its syntactic pieces.  The
decimal point is present exactly when `fracDigits` is nonempty, the
exponent marker exactly when `expDigits` is nonempty. -/
structure NumTok where
  sign : List Char
  intDigits : List Char
  fracDigits : List Char
  expMark : List Char
  expSign : List Char
  expDigits : List Char
deriving Repr, DecidableEq

/-- The exact substring of the text this token matched. -/
def NumTok.render (t : NumTok) : List Char :=
  t.sign ++ t.intDigits
    ++ (if t.fracDigits.isEmpty then [] else ('.') :: t.fracDigits)
    ++ t.expMark ++ t.expSign ++ t.expDigits

/-- Value of a digit string (most significant first). -/
def digitsVal (l : List Char) : Nat :=
  l.foldl (fun n c => 10 * n + (c.toNat - 48)) 0

/-- The numeric value `float(...)` gives this token (exact-rational
idealisation of the Python float).  Computed with integer arithmetic
and `mkRat` so that concrete instances evaluate inside the kernel. -/
def NumTok.val (t : NumTok) : ℚ :=
  let fl : Nat := t.fracDigits.length
  let mantNum : Int :=
    (if t.sign = [('-')] then -1 else 1)
      * ((digitsVal t.intDigits) * 10 ^ fl + digitsVal t.fracDigits : Nat)
  let ev : Nat := digitsVal t.expDigits
  if t.expSign = [('-')] then mkRat mantNum (10 ^ fl * 10 ^ ev)
  else mkRat (mantNum * 10 ^ ev) (10 ^ fl)

/-- Scan the mantissa `\d*\.?\d+` at the head of `l`: the integer and
fractional digit runs and the rest.  Mirrors the backtracking result of
the greedy pattern: a dot not followed by a digit is left unconsumed,
and at least one digit must be present overall. -/
def scanMant (l : List Char) : Option ((List Char × List Char) × List Char) :=
  let s1 := spanD isDigitChar l
  match s1.2 with
  | ('.') :: l3 =>
    let s2 := spanD isDigitChar l3
    if s2.1.isEmpty then
      if s1.1.isEmpty then none else some ((s1.1, []), s1.2)
    else some ((s1.1, s2.1), s2.2)
  | _ => if s1.1.isEmpty then none else some ((s1.1, []), s1.2)

/-- Scan the optional exponent `(?:[eE][-+]?\d+)?` at the head of `l`:
marker, sign and digit characters (all empty when the group does not
participate) and the rest. -/
def scanExp (l : List Char) : (List Char × List Char × List Char) × List Char :=
  match l with
  | c :: l1 =>
    if c == ('e') || c == ('E') then
      let s := scanSign l1
      let d := spanD isDigitChar s.2
      if d.1.isEmpty then (([], [], []), l) else (([c], s.1, d.1), d.2)
    else (([], [], []), l)
  | [] => (([], [], []), [])

/-- Match the number subpattern at the head of `l`. -/
def scanNum (l : List Char) : Option (NumTok × List Char) :=
  let sg := scanSign l
  match scanMant sg.2 with
  | none => none
  | some ((di, df), l2) =>
    let e := scanExp l2
    some (⟨sg.1, di, df, e.1.1, e.1.2.1, e.1.2.2⟩, e.2)

/-- Match `(\w+)\s*=\s*(NUM)` at the head of `l`, returning the two
groups and the rest. -/
def tryPatEq (l : List Char) : Option ((List Char × NumTok) × List Char) :=
  let w := spanD isWordChar l
  if w.1.isEmpty then none else
  let sp := spanD isPySpace w.2
  match sp.2 with
  | ('=') :: l3 =>
    let sp2 := spanD isPySpace l3
    match scanNum sp2.2 with
    | some (t, l5) => some ((w.1, t), l5)
    | none => none
  | _ => none

/-- Match `(\w+):\s*(NUM)` at the head of `l` (no whitespace allowed
between the name and the colon). -/
def tryPatColon (l : List Char) : Option ((List Char × NumTok) × List Char) :=
  let w := spanD isWordChar l
  if w.1.isEmpty then none else
  match w.2 with
  | (':') :: l3 =>
    let sp := spanD isPySpace l3
    match scanNum sp.2 with
    | some (t, l5) => some ((w.1, t), l5)
    | none => none
  | _ => none

/-- Match `(\w+)\s+(NUM)` at the head of `l` (at least one whitespace
character between the name and the number). -/
def tryPatWs (l : List Char) : Option ((List Char × NumTok) × List Char) :=
  let w := spanD isWordChar l
  if w.1.isEmpty then none else
  let sp := spanD isPySpace w.2
  if sp.1.isEmpty then none else
  match scanNum sp.2 with
  | some (t, l5) => some ((w.1, t), l5)
  | none => none

/-- `re.findall`: left-to-right non-overlapping scan.  The fuel starts
at `length + 1` and is an upper bound on the number of scan steps: a
failed attempt consumes one character and every successful match of the
three patterns consumes at least the nonempty name group. -/
def findAllAux (tryM : List Char → Option ((List Char × NumTok) × List Char)) :
    Nat → List Char → List (List Char × NumTok)
  | 0, _ => []
  | fuel + 1, l =>
    match tryM l with
    | some (m, rest) => m :: findAllAux tryM fuel rest
    | none =>
      match l with
      | [] => []
      | _ :: rest => findAllAux tryM fuel rest

/-- `re.findall(pattern, content)` for one of the three patterns. -/
def findAll (tryM : List Char → Option ((List Char × NumTok) × List Char))
    (l : List Char) : List (List Char × NumTok) :=
  findAllAux tryM (l.length + 1) l

/-- All matches the extractor iterates over, in application order:
every `key=value` match, then every `key: value` match, then every
`key value` match. -/
def allMatches (content : String) : List (List Char × NumTok) :=
  findAll tryPatEq content.toList ++ findAll tryPatColon content.toList
    ++ findAll tryPatWs content.toList

/-- Python `float(value)` on the matched value substring: optional
sign, digits with an optional decimal point (at least one digit), then
an optional exponent; anything else raises (`none`).  On success the
value is the parsed token's value. -/
def pyFloat (l : List Char) : Option ℚ :=
  let sg := scanSign l
  let d1 := spanD isDigitChar sg.2
  let fr : Option (List Char) × List Char :=
    match d1.2 with
    | c :: r =>
      if c == ('.') then
        let d2 := spanD isDigitChar r
        (some d2.1, d2.2)
      else (none, c :: r)
    | [] => (none, [])
  if d1.1.isEmpty ∧ (fr.1.getD []).isEmpty then none
  else
    match fr.2 with
    | [] => some (NumTok.val ⟨sg.1, d1.1, fr.1.getD [], [], [], []⟩)
    | c :: r =>
      if c == ('e') || c == ('E') then
        let es := scanSign r
        let ed := spanD isDigitChar es.2
        if ed.1.isEmpty then none
        else
          match ed.2 with
          | [] => some (NumTok.val ⟨sg.1, d1.1, fr.1.getD [], [c], es.1, ed.1⟩)
          | _ :: _ => none
      else none

/-- One dict update of the extractor's inner loop:
`parameters[key.lower()] = float(value)`, skipping the pair when
`float` raises. -/
def extractStep (m : List (String × ℚ)) (kv : List Char × NumTok) :
    List (String × ℚ) :=
  match pyFloat kv.2.render with
  | some v => dictInsert m (String.mk (lowerChars kv.1)) v
  | none => m

/-- Embedding of `ValidationEngine._extract_parameters`: fold the
matches of the three patterns, in pattern order, into the parameter
dict. -/
def extract_parameters (content : String) : List (String × ℚ) :=
  let m1 := (findAll tryPatEq content.toList).foldl extractStep []
  let m2 := (findAll tryPatColon content.toList).foldl extractStep m1
  (findAll tryPatWs content.toList).foldl extractStep m2

/-- The specification-level dict update: store the match under the
lowercased name with the token's numeric value, last write wins (no
skip branch). -/
def applyMatch (m : List (String × ℚ)) (kv : List Char × NumTok) :
    List (String × ℚ) :=
  dictInsert m (String.mk (lowerChars kv.1)) kv.2.val

/-! ### Well-formedness of scanned number tokens -/

/-- Shape invariant of every token `scanNum` produces: the digit runs
hold digit characters, the sign fields are empty or one sign character,
the mantissa has at least one digit, and the exponent group is either
entirely absent or a marker with at least one digit. -/
def NumTokWF (t : NumTok) : Prop :=
  (∀ c ∈ t.intDigits, isDigitChar c = true)
  ∧ (∀ c ∈ t.fracDigits, isDigitChar c = true)
  ∧ (∀ c ∈ t.expDigits, isDigitChar c = true)
  ∧ (t.sign = [] ∨ t.sign = [('+')] ∨ t.sign = [('-')])
  ∧ (t.intDigits ≠ [] ∨ t.fracDigits ≠ [])
  ∧ ((t.expMark = [] ∧ t.expSign = [] ∧ t.expDigits = [])
    ∨ ((t.expMark = [('e')] ∨ t.expMark = [('E')])
        ∧ t.expDigits ≠ []
        ∧ (t.expSign = [] ∨ t.expSign = [('+')] ∨ t.expSign = [('-')])))

lemma spanD_fst_mem (p : Char → Bool) (l : List Char) :
    ∀ c ∈ (spanD p l).1, p c = true := by
  induction l with
  | nil => intro c hc; cases hc
  | cons a rest ih =>
    intro c hc
    by_cases hp : p a
    · rw [spanD, if_pos hp] at hc
      rcases List.mem_cons.mp hc with h | h
      · rw [h]; exact hp
      · exact ih c h
    · rw [spanD, if_neg hp] at hc
      cases hc

lemma spanD_append (p : Char → Bool) (d r : List Char)
    (hd : ∀ c ∈ d, p c = true) (hr : ∀ c t, r = c :: t → p c = false) :
    spanD p (d ++ r) = (d, r) := by
  induction d with
  | nil =>
    cases hrr : r with
    | nil => simp [spanD, hrr]
    | cons c t =>
      have := hr c t hrr
      simp [spanD, hrr, this]
  | cons a dd ih =>
    have ha : p a = true := hd a (List.mem_cons_self a dd)
    have hdd : ∀ c ∈ dd, p c = true := fun c hc => hd c (List.mem_cons_of_mem a hc)
    rw [List.cons_append, spanD, if_pos ha, ih hdd]

lemma scanSign_shape (l : List Char) :
    (scanSign l).1 = [] ∨ (scanSign l).1 = [('+')] ∨ (scanSign l).1 = [('-')] := by
  cases l with
  | nil => exact Or.inl rfl
  | cons c r =>
    by_cases hc : (c == ('+') || c == ('-')) = true
    · rw [scanSign]
      rw [if_pos hc]
      rcases Bool.or_eq_true_iff.mp hc with h | h
      · exact Or.inr (Or.inl (by rw [beq_iff_eq] at h; rw [h]))
      · exact Or.inr (Or.inr (by rw [beq_iff_eq] at h; rw [h]))
    · rw [scanSign, if_neg hc]
      exact Or.inl rfl

/-- A digit character is not equal to any non-digit character. -/
lemma digit_beq_nondigit (c d : Char) (h : isDigitChar c = true)
    (hd : isDigitChar d = false) : (c == d) = false := by
  cases hbeq : c == d
  · rfl
  · rw [beq_iff_eq] at hbeq
    rw [hbeq] at h
    rw [h] at hd
    cases hd

lemma scanMant_props (l : List Char) (di df : List Char) (r : List Char)
    (h : scanMant l = some ((di, df), r)) :
    (∀ c ∈ di, isDigitChar c = true) ∧ (∀ c ∈ df, isDigitChar c = true)
      ∧ (di ≠ [] ∨ df ≠ []) := by
  simp only [scanMant] at h
  split at h
  · split at h
    · split at h
      · cases h
      · obtain ⟨rfl, rfl⟩ : (spanD isDigitChar l).1 = di ∧ ([] : List Char) = df := by
          have h2 := Option.some.inj h
          have h3 := congrArg Prod.fst h2
          exact ⟨congrArg Prod.fst h3, congrArg Prod.snd h3⟩
        refine ⟨spanD_fst_mem _ _, fun c hc => absurd hc (List.not_mem_nil c), ?_⟩
        refine Or.inl ?_
        intro hnil
        rename_i hne
        rw [hnil] at hne
        exact hne rfl
    · obtain ⟨rfl, rfl⟩ : (spanD isDigitChar l).1 = di
          ∧ (spanD isDigitChar _).1 = df := by
        have h2 := Option.some.inj h
        have h3 := congrArg Prod.fst h2
        exact ⟨congrArg Prod.fst h3, congrArg Prod.snd h3⟩
      refine ⟨spanD_fst_mem _ _, spanD_fst_mem _ _, Or.inr ?_⟩
      rename_i hne
      intro hnil
      rw [hnil] at hne
      exact hne rfl
  · split at h
    · cases h
    · obtain ⟨rfl, rfl⟩ : (spanD isDigitChar l).1 = di ∧ ([] : List Char) = df := by
        have h2 := Option.some.inj h
        have h3 := congrArg Prod.fst h2
        exact ⟨congrArg Prod.fst h3, congrArg Prod.snd h3⟩
      refine ⟨spanD_fst_mem _ _, fun c hc => absurd hc (List.not_mem_nil c), ?_⟩
      refine Or.inl ?_
      intro hnil
      rename_i hne
      rw [hnil] at hne
      exact hne rfl

lemma scanExp_props (l : List Char) :
    ((scanExp l).1 = ([], [], []))
    ∨ (∃ c : Char, (c = ('e') ∨ c = ('E')) ∧ (scanExp l).1.1 = [c]
        ∧ ((scanExp l).1.2.1 = [] ∨ (scanExp l).1.2.1 = [('+')]
            ∨ (scanExp l).1.2.1 = [('-')])
        ∧ (scanExp l).1.2.2 ≠ []
        ∧ (∀ c2 ∈ (scanExp l).1.2.2, isDigitChar c2 = true)) := by
  cases l with
  | nil => exact Or.inl rfl
  | cons c l1 =>
    by_cases hc : (c == ('e') || c == ('E')) = true
    · by_cases hd : (spanD isDigitChar (scanSign l1).2).1.isEmpty
      · refine Or.inl ?_
        simp only [scanExp, hc, if_true, hd, if_pos]
      · refine Or.inr ⟨c, ?_, ?_, ?_, ?_, ?_⟩
        · rcases Bool.or_eq_true_iff.mp hc with h | h
          · exact Or.inl (beq_iff_eq.mp h)
          · exact Or.inr (beq_iff_eq.mp h)
        · simp only [scanExp, hc, if_true, hd, if_neg, Bool.not_eq_true]
        · have := scanSign_shape l1
          simpa only [scanExp, hc, if_true, hd, if_neg, Bool.not_eq_true] using this
        · simp only [scanExp, hc, if_true, hd, if_neg, Bool.not_eq_true]
          intro hnil
          rw [hnil] at hd
          exact hd rfl
        · simp only [scanExp, hc, if_true, hd, if_neg, Bool.not_eq_true]
          exact spanD_fst_mem _ _
    · refine Or.inl ?_
      simp only [scanExp, hc]
      rfl

lemma scanNum_wf (l : List Char) (t : NumTok) (r : List Char)
    (h : scanNum l = some (t, r)) : NumTokWF t := by
  simp only [scanNum] at h
  split at h
  · cases h
  · rename_i di df l2 hm
    have hmant := scanMant_props _ _ _ _ hm
    have hsign := scanSign_shape l
    have hexp := scanExp_props l2
    obtain ⟨rfl, -⟩ : (⟨(scanSign l).1, di, df, (scanExp l2).1.1, (scanExp l2).1.2.1,
        (scanExp l2).1.2.2⟩ : NumTok) = t ∧ (scanExp l2).2 = r := by
      have h2 := Option.some.inj h
      exact ⟨congrArg Prod.fst h2, congrArg Prod.snd h2⟩
    refine ⟨hmant.1, hmant.2.1, ?_, hsign, hmant.2.2, ?_⟩
    · rcases hexp with he | ⟨c, hce, hm1, hs1, hd1, hall⟩
      · intro c hc
        have : (scanExp l2).1.2.2 = [] := congrArg (fun p => p.2.2) he
        rw [this] at hc
        cases hc
      · exact hall
    · rcases hexp with he | ⟨c, hce, hm1, hs1, hd1, hall⟩
      · refine Or.inl ⟨congrArg (fun p => p.1) he, congrArg (fun p => p.2.1) he,
          congrArg (fun p => p.2.2) he⟩
      · refine Or.inr ⟨?_, hd1, hs1⟩
        rcases hce with h1 | h1
        · exact Or.inl (by rw [hm1, h1])
        · exact Or.inr (by rw [hm1, h1])

/-! ### Parsing a rendered token recovers its value -/

lemma scanSign_cons_sign (c : Char) (r : List Char)
    (hc : ((c == ('+')) || (c == ('-'))) = true) : scanSign (c :: r) = ([c], r) := by
  simp [scanSign, hc]

lemma scanSign_no_sign (l : List Char)
    (hl : ∀ c r, l = c :: r → ((c == ('+')) || (c == ('-'))) = false) :
    scanSign l = ([], l) := by
  cases l with
  | nil => rfl
  | cons c r => simp [scanSign, hl c r rfl]

lemma scanSign_exact (sgn rest : List Char)
    (hs : sgn = [] ∨ sgn = [('+')] ∨ sgn = [('-')])
    (hrest : ∀ c r, rest = c :: r → ((c == ('+')) || (c == ('-'))) = false) :
    scanSign (sgn ++ rest) = (sgn, rest) := by
  rcases hs with rfl | rfl | rfl
  · rw [List.nil_append]
    exact scanSign_no_sign rest hrest
  · rw [List.singleton_append]
    exact scanSign_cons_sign _ _ (by decide)
  · rw [List.singleton_append]
    exact scanSign_cons_sign _ _ (by decide)

lemma headNonSign_digits (d rest : List Char)
    (hd : ∀ c ∈ d, isDigitChar c = true) (hne : d ≠ []) :
    ∀ c r, d ++ rest = c :: r → ((c == ('+')) || (c == ('-'))) = false := by
  cases d with
  | nil => exact absurd rfl hne
  | cons a tail =>
    intro c r hcons
    rw [List.cons_append] at hcons
    obtain ⟨rfl, -⟩ := List.cons.inj hcons
    have ha : isDigitChar a = true := hd a (List.mem_cons_self a tail)
    rw [digit_beq_nondigit a (('+')) ha (by decide),
      digit_beq_nondigit a (('-')) ha (by decide)]
    rfl

lemma spanD_all (p : Char → Bool) (d : List Char) (hd : ∀ c ∈ d, p c = true) :
    spanD p d = (d, []) := by
  have h := spanD_append p d [] hd (fun c t hct => by cases hct)
  rwa [List.append_nil] at h

lemma headNonSign_of_digits (d : List Char) (hd : ∀ c ∈ d, isDigitChar c = true) :
    ∀ c r, d = c :: r → ((c == ('+')) || (c == ('-'))) = false := by
  intro c r hcons
  have hc : isDigitChar c = true := by
    rw [hcons] at hd
    exact hd c (List.mem_cons_self c r)
  rw [digit_beq_nondigit c (('+')) hc (by decide),
    digit_beq_nondigit c (('-')) hc (by decide)]
  rfl

lemma headNonSign_append (d rest : List Char)
    (hd : ∀ c ∈ d, isDigitChar c = true)
    (hrest : ∀ c r, rest = c :: r → ((c == ('+')) || (c == ('-'))) = false) :
    ∀ c r, d ++ rest = c :: r → ((c == ('+')) || (c == ('-'))) = false := by
  cases d with
  | nil =>
    intro c r hcons
    exact hrest c r (by rw [← List.nil_append rest]; exact hcons)
  | cons a tail =>
    intro c r hcons
    rw [List.cons_append] at hcons
    obtain ⟨rfl, -⟩ := List.cons.inj hcons
    exact headNonSign_of_digits (a :: tail) hd a tail rfl

/-- Parsing the exact substring a well-formed token matched with
Python's `float` recovers the token's value: the `except ValueError`
skip branch of the extractor can never fire on a scanned match. -/
lemma pyFloat_render (t : NumTok) (hw : NumTokWF t) :
    pyFloat t.render = some t.val := by
  obtain ⟨sg, di, df, em, esg, ed⟩ := t
  obtain ⟨hint, hfrac, hexd, hsign, hmant, hexp⟩ := hw
  replace hint : ∀ c ∈ di, isDigitChar c = true := hint
  replace hfrac : ∀ c ∈ df, isDigitChar c = true := hfrac
  replace hexd : ∀ c ∈ ed, isDigitChar c = true := hexd
  replace hsign : sg = [] ∨ sg = [('+')] ∨ sg = [('-')] := hsign
  replace hmant : di ≠ [] ∨ df ≠ [] := hmant
  replace hexp : (em = [] ∧ esg = [] ∧ ed = [])
      ∨ ((em = [('e')] ∨ em = [('E')]) ∧ ed ≠ []
          ∧ (esg = [] ∨ esg = [('+')] ∨ esg = [('-')])) := hexp
  rcases hexp with ⟨hem, hesn, hedn⟩ | ⟨hm, hdne, hsf⟩
  · -- no exponent group
    subst hem
    subst hesn
    subst hedn
    cases df with
    | nil =>
      have hdi : di ≠ [] := by
        rcases hmant with h | h
        · exact h
        · exact absurd rfl h
      have hrender : NumTok.render ⟨sg, di, [], [], [], []⟩ = sg ++ di := by
        simp [NumTok.render]
      have h1 : scanSign (sg ++ di) = (sg, di) :=
        scanSign_exact sg di hsign (headNonSign_of_digits di hint)
      have h2 : spanD isDigitChar di = (di, []) := spanD_all _ _ hint
      rw [hrender]
      simp [pyFloat, h1, h2, NumTok.val, hdi]
    | cons f0 ftl =>
      have hnd : ∀ c r, (('.') :: (f0 :: ftl) : List Char) = c :: r →
          isDigitChar c = false := by
        intro c r hcons
        obtain ⟨rfl, -⟩ := List.cons.inj hcons
        decide
      have hns : ∀ c r, (('.') :: (f0 :: ftl) : List Char) = c :: r →
          ((c == ('+')) || (c == ('-'))) = false := by
        intro c r hcons
        obtain ⟨rfl, -⟩ := List.cons.inj hcons
        decide
      have hrender : NumTok.render ⟨sg, di, f0 :: ftl, [], [], []⟩
          = sg ++ (di ++ (('.') :: (f0 :: ftl))) := by
        simp [NumTok.render]
      have h1 : scanSign (sg ++ (di ++ (('.') :: (f0 :: ftl))))
          = (sg, di ++ (('.') :: (f0 :: ftl))) :=
        scanSign_exact _ _ hsign (headNonSign_append di _ hint hns)
      have h2 : spanD isDigitChar (di ++ (('.') :: (f0 :: ftl)))
          = (di, ('.') :: (f0 :: ftl)) :=
        spanD_append _ _ _ hint hnd
      have h3 : spanD isDigitChar (f0 :: ftl) = (f0 :: ftl, []) :=
        spanD_all _ _ hfrac
      rw [hrender]
      simp [pyFloat, h1, h2, h3, NumTok.val]
  · -- exponent group present
    obtain ⟨m, rfl⟩ : ∃ m : Char, em = [m] := by
      rcases hm with h | h
      · exact ⟨('e'), h⟩
      · exact ⟨('E'), h⟩
    have hmbeq : ((m == ('e')) || (m == ('E'))) = true := by
      rcases hm with h | h
      · obtain ⟨rfl, -⟩ := List.cons.inj h
        decide
      · obtain ⟨rfl, -⟩ := List.cons.inj h
        decide
    have hmnotdot : (m == ('.')) = false := by
      rcases hm with h | h
      · obtain ⟨rfl, -⟩ := List.cons.inj h
        decide
      · obtain ⟨rfl, -⟩ := List.cons.inj h
        decide
    have hmnotdigit : isDigitChar m = false := by
      rcases hm with h | h
      · obtain ⟨rfl, -⟩ := List.cons.inj h
        decide
      · obtain ⟨rfl, -⟩ := List.cons.inj h
        decide
    have hmnotsign : ((m == ('+')) || (m == ('-'))) = false := by
      rcases hm with h | h
      · obtain ⟨rfl, -⟩ := List.cons.inj h
        decide
      · obtain ⟨rfl, -⟩ := List.cons.inj h
        decide
    have hmnd : ∀ c r, (m :: (esg ++ ed) : List Char) = c :: r →
        isDigitChar c = false := by
      intro c r hcons
      obtain ⟨rfl, -⟩ := List.cons.inj hcons
      exact hmnotdigit
    have hmns : ∀ c r, (m :: (esg ++ ed) : List Char) = c :: r →
        ((c == ('+')) || (c == ('-'))) = false := by
      intro c r hcons
      obtain ⟨rfl, -⟩ := List.cons.inj hcons
      exact hmnotsign
    have hesED : scanSign (esg ++ ed) = (esg, ed) :=
      scanSign_exact esg ed hsf (headNonSign_of_digits ed hexd)
    have hedspan : spanD isDigitChar ed = (ed, []) := spanD_all _ _ hexd
    cases df with
    | nil =>
      have hdi : di ≠ [] := by
        rcases hmant with h | h
        · exact h
        · exact absurd rfl h
      have hrender : NumTok.render ⟨sg, di, [], [m], esg, ed⟩
          = sg ++ (di ++ (m :: (esg ++ ed))) := by
        simp [NumTok.render]
      have h1 : scanSign (sg ++ (di ++ (m :: (esg ++ ed))))
          = (sg, di ++ (m :: (esg ++ ed))) :=
        scanSign_exact _ _ hsign (headNonSign_append di _ hint hmns)
      have h2 : spanD isDigitChar (di ++ (m :: (esg ++ ed)))
          = (di, m :: (esg ++ ed)) :=
        spanD_append _ _ _ hint hmnd
      rw [hrender]
      simp [pyFloat, h1, h2, NumTok.val, hdi, hmnotdot, hmbeq, hesED, hedspan, hdne]
    | cons f0 ftl =>
      have hnd : ∀ c r, (('.') :: ((f0 :: ftl) ++ (m :: (esg ++ ed))) : List Char)
          = c :: r → isDigitChar c = false := by
        intro c r hcons
        obtain ⟨rfl, -⟩ := List.cons.inj hcons
        decide
      have hns : ∀ c r, (('.') :: ((f0 :: ftl) ++ (m :: (esg ++ ed))) : List Char)
          = c :: r → ((c == ('+')) || (c == ('-'))) = false := by
        intro c r hcons
        obtain ⟨rfl, -⟩ := List.cons.inj hcons
        decide
      have hrender : NumTok.render ⟨sg, di, f0 :: ftl, [m], esg, ed⟩
          = sg ++ (di ++ (('.') :: ((f0 :: ftl) ++ (m :: (esg ++ ed))))) := by
        simp [NumTok.render]
      have h1 :
          scanSign (sg ++ (di ++ (('.') :: ((f0 :: ftl) ++ (m :: (esg ++ ed))))))
          = (sg, di ++ (('.') :: ((f0 :: ftl) ++ (m :: (esg ++ ed))))) :=
        scanSign_exact _ _ hsign (headNonSign_append di _ hint hns)
      have h2 :
          spanD isDigitChar (di ++ (('.') :: ((f0 :: ftl) ++ (m :: (esg ++ ed)))))
          = (di, ('.') :: ((f0 :: ftl) ++ (m :: (esg ++ ed)))) :=
        spanD_append _ _ _ hint hnd
      have h3 : spanD isDigitChar ((f0 :: ftl) ++ (m :: (esg ++ ed)))
          = (f0 :: ftl, m :: (esg ++ ed)) :=
        spanD_append _ _ _ hfrac hmnd
      simp only [List.cons_append] at h1 h2 h3
      rw [hrender]
      simp [pyFloat, h1, h2, h3, NumTok.val, hmnotdot, hmbeq, hesED, hedspan, hdne]

lemma tryPatEq_wf (l : List Char) (m : List Char × NumTok) (r : List Char)
    (h : tryPatEq l = some (m, r)) : NumTokWF m.2 := by
  simp only [tryPatEq] at h
  split at h
  · cases h
  · split at h
    · split at h
      · rename_i t l5 hs
        obtain ⟨rfl, -⟩ : ((spanD isWordChar l).1, t) = m ∧ l5 = r := by
          have h2 := Option.some.inj h
          exact ⟨congrArg Prod.fst h2, congrArg Prod.snd h2⟩
        exact scanNum_wf _ _ _ hs
      · cases h
    · cases h

lemma tryPatColon_wf (l : List Char) (m : List Char × NumTok) (r : List Char)
    (h : tryPatColon l = some (m, r)) : NumTokWF m.2 := by
  simp only [tryPatColon] at h
  split at h
  · cases h
  · split at h
    · split at h
      · rename_i t l5 hs
        obtain ⟨rfl, -⟩ : ((spanD isWordChar l).1, t) = m ∧ l5 = r := by
          have h2 := Option.some.inj h
          exact ⟨congrArg Prod.fst h2, congrArg Prod.snd h2⟩
        exact scanNum_wf _ _ _ hs
      · cases h
    · cases h

lemma tryPatWs_wf (l : List Char) (m : List Char × NumTok) (r : List Char)
    (h : tryPatWs l = some (m, r)) : NumTokWF m.2 := by
  simp only [tryPatWs] at h
  split at h
  · cases h
  · split at h
    · cases h
    · split at h
      · rename_i t l5 hs
        obtain ⟨rfl, -⟩ : ((spanD isWordChar l).1, t) = m ∧ l5 = r := by
          have h2 := Option.some.inj h
          exact ⟨congrArg Prod.fst h2, congrArg Prod.snd h2⟩
        exact scanNum_wf _ _ _ hs
      · cases h

lemma findAllAux_mem_wf
    (tryM : List Char → Option ((List Char × NumTok) × List Char))
    (hTry : ∀ l m r, tryM l = some (m, r) → NumTokWF m.2) :
    ∀ (fuel : Nat) (l : List Char), ∀ kv ∈ findAllAux tryM fuel l, NumTokWF kv.2 := by
  intro fuel
  induction fuel with
  | zero =>
    intro l kv hkv
    cases hkv
  | succ n ih =>
    intro l kv hkv
    simp only [findAllAux] at hkv
    rcases htry : tryM l with - | ⟨mm, rest⟩
    · rw [htry] at hkv
      simp only at hkv
      cases l with
      | nil => cases hkv
      | cons a rest2 => exact ih rest2 kv hkv
    · rw [htry] at hkv
      simp only at hkv
      rcases List.mem_cons.mp hkv with h | h
      · rw [h]
        exact hTry l mm rest htry
      · exact ih rest kv h

lemma findAll_mem_wf
    (tryM : List Char → Option ((List Char × NumTok) × List Char))
    (hTry : ∀ l m r, tryM l = some (m, r) → NumTokWF m.2)
    (l : List Char) : ∀ kv ∈ findAll tryM l, NumTokWF kv.2 := by
  intro kv hkv
  exact findAllAux_mem_wf tryM hTry (l.length + 1) l kv hkv

/-- **C9.** Implicit totality of the parameter extractor: the extractor
is a total function, every stored value is a (rational-modelled) float,
and the `except ValueError` skip branch is unreachable: `float` succeeds
on the value substring of every match any of the three patterns
produces. -/
theorem extractor_tokens_parse (content : String) :
    ∀ kv ∈ allMatches content, (pyFloat kv.2.render).isSome = true := by
  intro kv hkv
  have hwf : NumTokWF kv.2 := by
    rw [allMatches] at hkv
    rcases List.mem_append.mp hkv with h | h
    · rcases List.mem_append.mp h with h1 | h1
      · exact findAll_mem_wf _ tryPatEq_wf _ kv h1
      · exact findAll_mem_wf _ tryPatColon_wf _ kv h1
    · exact findAll_mem_wf _ tryPatWs_wf _ kv h
  rw [pyFloat_render kv.2 hwf]
  rfl

/-- Closed witness for the extractor-totality theorem: the single match
of `x = 1` is parsed by `float`, via the theorem applied at the concrete
content. -/
theorem extractor_tokens_parse_witness :
    (pyFloat (NumTok.render ⟨[], [('1')], [], [], [], []⟩)).isSome = true :=
  extractor_tokens_parse ("x = 1") ((['x'], ⟨[], [('1')], [], [], [], []⟩))
    (by decide)

lemma foldl_extractStep_applyMatch (ms : List (List Char × NumTok))
    (hms : ∀ kv ∈ ms, NumTokWF kv.2) (m0 : List (String × ℚ)) :
    ms.foldl extractStep m0 = ms.foldl applyMatch m0 := by
  induction ms generalizing m0 with
  | nil => rfl
  | cons kv rest ih =>
    have hstep : extractStep m0 kv = applyMatch m0 kv := by
      rw [extractStep, pyFloat_render kv.2 (hms kv (List.mem_cons_self kv rest))]
      rfl
    rw [List.foldl_cons, List.foldl_cons, hstep]
    exact ih (fun kv2 h2 => hms kv2 (List.mem_cons_of_mem kv h2)) _

/-- **C6.** Parameter extractor algorithm: the output dict equals the
result of applying, in order, the `name = number`, `name: number` and
`name<whitespace>number` patterns over the whole text, storing each
match under the lowercased name as a float with last-write-wins (the
value of the last match applied wins, with no check that values agree);
the empty mapping is a valid output.  Concretely, a later `x = 2` match
of the same pattern overwrites `x = 1`, while `x: 1` overwrites `x = 2`
because the colon pattern is applied after the equals pattern. -/
theorem extractor_pattern_order (content : String) :
    extract_parameters content = (allMatches content).foldl applyMatch []
    ∧ extract_parameters ("") = []
    ∧ extract_parameters ("x = 1\nx = 2") = [(("x"), (2 : ℚ))]
    ∧ extract_parameters ("x: 1\nx = 2") = [(("x"), (1 : ℚ))] := by
  refine ⟨?_, by decide, by decide, by decide⟩
  rw [extract_parameters, allMatches, List.foldl_append, List.foldl_append]
  rw [foldl_extractStep_applyMatch _ (findAll_mem_wf _ tryPatEq_wf _) []]
  rw [foldl_extractStep_applyMatch _ (findAll_mem_wf _ tryPatColon_wf _) _]
  rw [foldl_extractStep_applyMatch _ (findAll_mem_wf _ tryPatWs_wf _) _]

end ValidationSuite
